import Mathlib

/-!
Verification of the cazi repository's claim-accessor, decision-model and
expression-delegation contracts, as a shallow embedding of the Go source
(pkg/cazi, pkg/claims, examples/widgets-service) in Lean 4.

Go maps (`map[string]any`) are modelled as association lists with unique
keys reached by insertion; in-place mutation of a map becomes a function
returning the updated container.  A nil map is `none`.  External
collaborators (the CEL engine, cel2sql, the SQL database) are parameters
of the definitions that call them, exactly at the call boundary the
source uses.
-/

namespace Cazi

/-- A JSON-shaped dynamic value: a Go `any` stored inside a
`map[string]any` claims container (scalars, nested string-keyed
mappings, sequences). -/
inductive Value where
  | vStr : String → Value
  | vInt : Int → Value
  | vBool : Bool → Value
  | vMap : List (String × Value) → Value
  | vList : List Value → Value

/-- A string-keyed mapping (a non-nil Go `map[string]any`), modelled as an
association list whose keys are unique. -/
abbrev Smap := List (String × Value)

/-- Map lookup `val, ok := m[key]`. -/
def lookupS : Smap → String → Option Value
  | [], _ => none
  | (k0, v0) :: rest, k => if k0 = k then some v0 else lookupS rest k

/-- Map assignment `m[key] = val` (replaces an existing binding, otherwise
appends). -/
def insertS : Smap → String → Value → Smap
  | [], k, v => [(k, v)]
  | (k0, v0) :: rest, k, v =>
    if k0 = k then (k, v) :: rest else (k0, v0) :: insertS rest k v

/-- `cazi.Claims` (also the superseded `cazi.ContextClaims` variant): a Go
`map[string]any` which may be nil; `none` models the nil map. -/
abbrev Claims := Option Smap

/-- Lookup in a possibly-nil claims container: reading from a nil Go map
yields `ok = false`. -/
def lookupClaims : Claims → String → Option Value
  | none, _ => none
  | some m, k => lookupS m k

/-- A Go runtime type `T` usable as a claim value: its zero value (`var
zero T`), its injection into dynamic values, and the checked type
assertion `typed, ok := val.(T)` (`proj val = some t` exactly when the
dynamic value holds a `T`). -/
structure GoRep (T : Type) where
  zero : T
  inj : T → Value
  proj : Value → Option T

/-- `cazi.Claim[T]` from pkg/cazi/cazi.go: a typed get/set pair over a
claims container. -/
structure Claim (T : Type) where
  Get : Claims → T × Bool
  Set : Claims → T → Claims

/-- `claims.TopLevel[T](key)` from pkg/claims/helpers.go: `Get` looks the
key up and type-asserts the value (zero and false when missing or of the
wrong type); `Set` writes the key, guarded by `claims != nil`. -/
def TopLevel {T : Type} (rep : GoRep T) (key : String) : Claim T where
  Get := fun claims =>
    match lookupClaims claims key with
    | none => (rep.zero, false)
    | some val =>
      match rep.proj val with
      | none => (rep.zero, false)
      | some t => (t, true)
  Set := fun claims v =>
    match claims with
    | none => none
    | some m => some (insertS m key (rep.inj v))

/-- Read of the final path segment in a nested `Get`: lookup plus the
type-assert-or-not-found rule (pkg/claims/helpers.go, Nested Get tail). -/
def finalGet {T : Type} (rep : GoRep T) (m : Smap) (key : String) : T × Bool :=
  match lookupS m key with
  | none => (rep.zero, false)
  | some val =>
    match rep.proj val with
    | none => (rep.zero, false)
    | some t => (t, true)

/-- The nested `Get` walk from pkg/claims/helpers.go: descend through the
intermediate segments (all but the last), only through values that are
themselves mappings; a missing key or non-mapping intermediate yields not
found.  The empty-path case is unreachable (construction panics first). -/
def nestedGetAux {T : Type} (rep : GoRep T) : Smap → List String → T × Bool
  | _, [] => (rep.zero, false)
  | m, [k] => finalGet rep m k
  | m, k :: k1 :: rest =>
    match lookupS m k with
    | some (Value.vMap nested) => nestedGetAux rep nested (k1 :: rest)
    | _ => (rep.zero, false)

/-- The chain of fresh singleton mappings the nested `Set` of
pkg/claims/helpers.go leaves behind after it creates an empty intermediate
map at a missing segment and keeps writing into fresh maps from there. -/
def buildFresh (val : Value) : List String → Smap
  | [] => []
  | [k] => [(k, val)]
  | k :: k1 :: rest => [(k, Value.vMap (buildFresh val (k1 :: rest)))]

/-- The nested `Set` walk from pkg/claims/helpers.go.  At an intermediate
segment: a missing key gets a fresh empty mapping which the rest of the
walk then fills (`buildFresh`); an existing mapping is descended into; an
existing non-mapping value aborts the walk (`none`), and since a fresh
mapping can never contain a non-mapping blocker, an abort implies no
mutation happened — the caller keeps the container unchanged. -/
def nestedSetAux {T : Type} (rep : GoRep T) (v : T) : Smap → List String → Option Smap
  | m, [] => some m
  | m, [k] => some (insertS m k (rep.inj v))
  | m, k :: k1 :: rest =>
    match lookupS m k with
    | none => some (insertS m k (Value.vMap (buildFresh (rep.inj v) (k1 :: rest))))
    | some (Value.vMap nested) =>
      match nestedSetAux rep v nested (k1 :: rest) with
      | none => none
      | some nested2 => some (insertS m k (Value.vMap nested2))
    | some _ => none

/-- `claims.Nested[T](path...)` from pkg/claims/helpers.go.  The Go
constructor panics on an empty path before returning an accessor; `none`
models that construction-time panic.  `Get` converts a nil container to a
nil map (all lookups miss); `Set` returns on a nil container, and keeps
the container unchanged when the walk aborts on a non-mapping
intermediate. -/
def Nested {T : Type} (rep : GoRep T) (path : List String) : Option (Claim T) :=
  if path = [] then none
  else some
    { Get := fun claims =>
        nestedGetAux rep (match claims with | none => [] | some m => m) path
      Set := fun claims v =>
        match claims with
        | none => none
        | some m =>
          match nestedSetAux rep v m path with
          | none => some m
          | some m2 => some m2 }

/-- Walk a list of intermediate segments, descending only through
mappings: `some` is the mapping reached, `none` means some segment was
missing or held a non-mapping value.  Used to state where a nested `Get`
reports not found. -/
def walkInter : Smap → List String → Option Smap
  | m, [] => some m
  | m, k :: ks =>
    match lookupS m k with
    | some (Value.vMap nested) => walkInter nested ks
    | _ => none

/-- Whether the nested `Set` walk is blocked: some intermediate segment of
the path, reached by descending through existing mappings, already holds a
non-mapping value. -/
def setBlocked : Smap → List String → Bool
  | _, [] => false
  | _, [_] => false
  | m, k :: k1 :: rest =>
    match lookupS m k with
    | none => false
    | some (Value.vMap nested) => setBlocked nested (k1 :: rest)
    | some _ => true

/-- The Go `string` runtime type as a claim value type. -/
def strRep : GoRep String :=
  { zero := ""
    inj := Value.vStr
    proj := fun v => match v with | Value.vStr s => some s | _ => none }

/-- The Go `int` runtime type as a claim value type. -/
def intRep : GoRep Int :=
  { zero := 0
    inj := Value.vInt
    proj := fun v => match v with | Value.vInt n => some n | _ => none }

/-- `claims.Sub` from pkg/claims (standard claims): the subject identifier
accessor, `TopLevel[string]("sub")`. -/
def Sub : Claim String := TopLevel strRep "sub"

/-- `cazi.Assertion` from pkg/cazi/cazi.go: a one-of over arbitrary
claims, an opaque token (type plus raw bytes), or a typed resource
reference. -/
inductive Assertion where
  | claims : Smap → Assertion
  | opaqueToken : String → List Nat → Assertion
  | resourceReference : String → String → Assertion

/-- `cazi.Subject`: the acting principal. -/
structure Subject where
  assertion : Assertion
  relation : String

/-- `cazi.Object`: the target of the action. -/
structure Object where
  assertion : Assertion

/-- `cazi.DecisionKind`: the tri-state outcome (plus the zero value
`unknown`). -/
inductive DecisionKind where
  | unknown
  | allow
  | deny
  | conditional
deriving DecidableEq

/-- `cazi.Expression`: a condition in some expression language; an empty
language is the zero-value sentinel for "no expression". -/
structure Expression where
  language : String
  expression : String
deriving DecidableEq

/-- `cazi.AuthorizationContext`: two independent optional claims bags. -/
structure AuthorizationContext where
  requesterContext : Claims
  transactionContext : Claims

/-- `cazi.CheckRequest` (the consistency token is opaque bytes). -/
structure CheckRequest where
  subject : Subject
  verb : String
  object : Object
  atLeastAsFresh : List Nat

/-- `cazi.CheckResponse`. -/
structure CheckResponse where
  decision : DecisionKind
  condition : Expression
  context : AuthorizationContext

/-- `cazi.ListObjectsRequest`. -/
structure ListObjectsRequest where
  subject : Subject
  verb : String
  objectType : String
  filter : Expression
  atLeastAsFresh : List Nat

/-- `cazi.ListObjectsResponse`. -/
structure ListObjectsResponse where
  decision : DecisionKind
  condition : Expression
  context : AuthorizationContext

/-- The zero value of `cazi.Expression`. -/
def Expression.empty : Expression := { language := "", expression := "" }

/-- The zero value of `cazi.AuthorizationContext` (both bags nil). -/
def AuthorizationContext.empty : AuthorizationContext :=
  { requesterContext := none, transactionContext := none }

/-- The CheckResponse a LocalAuthz error path returns:
`cazi.CheckResponse{Decision: cazi.DecisionDeny}` with all other fields at
their zero values. -/
def denyCheckResponse : CheckResponse :=
  { decision := DecisionKind.deny
    condition := Expression.empty
    context := AuthorizationContext.empty }

/-- The ListObjectsResponse a LocalAuthz error path returns. -/
def denyListResponse : ListObjectsResponse :=
  { decision := DecisionKind.deny
    condition := Expression.empty
    context := AuthorizationContext.empty }

/-- `LocalAuthz.Check` from
examples/widgets-service/infrastructure/local_authz.go: the subject must
be a ResourceReference of type "user" and the object a ResourceReference
of type "widget", otherwise a Deny response is paired with a non-nil
error; verb "create" is an unconditional Allow carrying the subject id in
the requester context; verb "read" is Conditional with the CEL expression
comparing the record's owner id to the subject id; any other verb is a
Deny response paired with an "unknown verb" error.  The Go pair
`(CheckResponse, error)` is the pair `CheckResponse × Option String`. -/
def LocalAuthz.Check (req : CheckRequest) : CheckResponse × Option String :=
  match req.subject.assertion with
  | Assertion.resourceReference sty uid =>
    if sty ≠ "user" then
      (denyCheckResponse, some "subject must be of type 'user'")
    else
      match req.object.assertion with
      | Assertion.resourceReference oty _ =>
        if oty ≠ "widget" then
          (denyCheckResponse, some "object must be of type 'widget'")
        else
          if req.verb = "create" then
            ({ decision := DecisionKind.allow
               condition := Expression.empty
               context :=
                 { requesterContext := Sub.Set (some []) uid
                   transactionContext := none } }, none)
          else if req.verb = "read" then
            ({ decision := DecisionKind.conditional
               condition :=
                 { language := "cel"
                   expression := "widget.owner_id == '" ++ uid ++ "'" }
               context :=
                 { requesterContext := Sub.Set (some []) uid
                   transactionContext := none } }, none)
          else
            (denyCheckResponse, some ("unknown verb: " ++ req.verb))
      | _ => (denyCheckResponse, some "object must be a ResourceReference")
  | _ => (denyCheckResponse, some "subject must be a ResourceReference")

/-- `LocalAuthz.ListObjects` from
examples/widgets-service/infrastructure/local_authz.go: the subject must
be a ResourceReference of type "user" and the object type "widget",
otherwise a Deny response is paired with a non-nil error; otherwise the
hardcoded policy returns a Conditional CEL filter on the owner id. -/
def LocalAuthz.ListObjects (req : ListObjectsRequest) : ListObjectsResponse × Option String :=
  match req.subject.assertion with
  | Assertion.resourceReference sty uid =>
    if sty ≠ "user" then
      (denyListResponse, some "subject must be of type 'user'")
    else
      if req.objectType ≠ "widget" then
        (denyListResponse, some ("unsupported object type: " ++ req.objectType))
      else
        ({ decision := DecisionKind.conditional
           condition :=
             { language := "cel"
               expression := "widget.owner_id == '" ++ uid ++ "'" }
           context :=
             { requesterContext := Sub.Set (some []) uid
               transactionContext := none } }, none)
  | _ => (denyListResponse, some "subject must be a ResourceReference")

/-- `domain.WidgetData` from examples/widgets-service/domain: the
serializable widget record.  `domain.Widget` carries the same four fields
and `DeserializeWidget ∘ Serialize` is the identity on them, so the
repository results are stated over `WidgetData`. -/
structure WidgetData where
  id : String
  name : String
  description : String
  ownerID : String
deriving DecidableEq

/-- The repository's error outcomes: `domain.ErrNotFound`, or any other
error (carried as its message). -/
inductive RepoErr where
  | notFound
  | other : String → RepoErr
deriving DecidableEq

/-- The widget store of `InMemoryWidgetRepository`
(`map[domain.WidgetID]domain.WidgetData`), as an association list. -/
abbrev WidgetStore := List (String × WidgetData)

/-- Store lookup `data, exists := r.widgets[id]`. -/
def lookupW : WidgetStore → String → Option WidgetData
  | [], _ => none
  | (k0, d0) :: rest, k => if k0 = k then some d0 else lookupW rest k

/-- An external CEL evaluation: widget data and an expression source to a
boolean, or an evaluation error.  `InMemoryWidgetRepository.evaluateCEL`
delegates to the cel-go engine, which is outside the repository. -/
abbrev CelEval := WidgetData → String → Except String Bool

/-- `InMemoryWidgetRepository.evaluateExpression` from
examples/widgets-service/infrastructure/memory_repository.go: the
repository decides by `expr.Language` whether it can evaluate the
expression; only "cel" is supported, anything else is the capability
error. -/
def evaluateExpression (ev : CelEval) (data : WidgetData) (expr : Expression) :
    Except String Bool :=
  if expr.language = "cel" then ev data expr.expression
  else
    Except.error
      ("unsupported expression language: " ++ expr.language ++
        " (repository only supports: cel)")

/-- The error FindByID and FindAll wrap an evaluation failure in
(`fmt.Errorf("failed to evaluate authorization expression: %w", err)`). -/
def evalFailure (e : String) : RepoErr :=
  RepoErr.other ("failed to evaluate authorization expression: " ++ e)

/-- `InMemoryWidgetRepository.FindByID` from
examples/widgets-service/infrastructure/memory_repository.go: a missing id
is ErrNotFound; with a non-empty expression language the record is kept
only if the expression matches, a failing record returning the very same
ErrNotFound; an evaluation error is wrapped and returned. -/
def FindByID (ev : CelEval) (widgets : WidgetStore) (id : String)
    (authzExpression : Expression) : Except RepoErr WidgetData :=
  match lookupW widgets id with
  | none => Except.error RepoErr.notFound
  | some data =>
    if authzExpression.language ≠ "" then
      match evaluateExpression ev data authzExpression with
      | Except.error e => Except.error (evalFailure e)
      | Except.ok false => Except.error RepoErr.notFound
      | Except.ok true => Except.ok data
    else Except.ok data

/-- `InMemoryWidgetRepository.FindAll` from
examples/widgets-service/infrastructure/memory_repository.go: iterate the
store, with a non-empty expression language keeping only matching
records; an evaluation error is wrapped and returned. -/
def FindAll (ev : CelEval) (authzExpression : Expression) :
    WidgetStore → Except RepoErr (List WidgetData)
  | [] => Except.ok []
  | (_, data) :: rest =>
    if authzExpression.language ≠ "" then
      match evaluateExpression ev data authzExpression with
      | Except.error e => Except.error (evalFailure e)
      | Except.ok false => FindAll ev authzExpression rest
      | Except.ok true =>
        match FindAll ev authzExpression rest with
        | Except.error e => Except.error e
        | Except.ok results => Except.ok (data :: results)
    else
      match FindAll ev authzExpression rest with
      | Except.error e => Except.error e
      | Except.ok results => Except.ok (data :: results)

/-- An external cel2sql conversion followed by SQL evaluation, as a
record predicate: what `SELECT ... WHERE id = $1 AND <clause>` adds over
the id equality in `PostgresWidgetRepository`. -/
abbrev CelToPred := String → Except String (WidgetData → Bool)

/-- `PostgresWidgetRepository.expressionToSQL` (src/unnamed part
superseding widgets-service infrastructure): only "cel" is convertible,
anything else is the capability error; the produced WHERE clause is the
abstract predicate. -/
def expressionToSQL (conv : CelToPred) (expr : Expression) :
    Except String (WidgetData → Bool) :=
  if expr.language ≠ "cel" then
    Except.error
      ("unsupported expression language: " ++ expr.language ++
        " (only 'cel' is supported)")
  else conv expr.expression

/-- `PostgresWidgetRepository.FindByID`: with a non-empty language the
expression is converted to a WHERE clause first (a conversion failure is
wrapped and returned before any row is read); the query returns the row
only when the id matches and the clause holds, and `sql.ErrNoRows` is
mapped to ErrNotFound — the same outcome for a missing id and for a
record failing the filter. -/
def PostgresFindByID (conv : CelToPred) (widgets : WidgetStore) (id : String)
    (authzExpression : Expression) : Except RepoErr WidgetData :=
  if authzExpression.language ≠ "" then
    match expressionToSQL conv authzExpression with
    | Except.error e =>
      Except.error
        (RepoErr.other ("failed to convert authorization expression to SQL: " ++ e))
    | Except.ok pred =>
      match lookupW widgets id with
      | none => Except.error RepoErr.notFound
      | some data =>
        if pred data then Except.ok data else Except.error RepoErr.notFound
  else
    match lookupW widgets id with
    | none => Except.error RepoErr.notFound
    | some data => Except.ok data

/-- Whether an assertion is a ResourceReference of type "user" (the
subject shape LocalAuthz requires). -/
def isUserRef : Assertion → Bool
  | Assertion.resourceReference t _ => t = "user"
  | _ => false

/-- Whether an assertion is a ResourceReference of type "widget" (the
object shape LocalAuthz.Check requires). -/
def isWidgetRef : Assertion → Bool
  | Assertion.resourceReference t _ => t = "widget"
  | _ => false

/-- A CEL evaluation that matches every record (a concrete evaluator
instance for counterexamples and witnesses). -/
def evalTrue : CelEval := fun _ _ => Except.ok true

/-- A CEL evaluation that rejects every record. -/
def evalFalse : CelEval := fun _ _ => Except.ok false

/-- A cel2sql conversion whose WHERE clause rejects every record. -/
def convFalse : CelToPred := fun _ => Except.ok (fun _ => false)

/-- A concrete widget record owned by "alice". -/
def widgetA : WidgetData :=
  { id := "w1", name := "n", description := "d", ownerID := "alice" }

/-- A concrete CheckRequest: user "alice" reads widget "w1". -/
def readRequest : CheckRequest :=
  { subject := { assertion := Assertion.resourceReference "user" "alice", relation := "" }
    verb := "read"
    object := { assertion := Assertion.resourceReference "widget" "w1" }
    atLeastAsFresh := [] }

/-- A concrete CheckRequest with an unrecognized verb. -/
def badVerbRequest : CheckRequest :=
  { subject := { assertion := Assertion.resourceReference "user" "alice", relation := "" }
    verb := "delete"
    object := { assertion := Assertion.resourceReference "widget" "w1" }
    atLeastAsFresh := [] }

/-- A concrete ListObjectsRequest: user "alice" lists widgets. -/
def listRequest : ListObjectsRequest :=
  { subject := { assertion := Assertion.resourceReference "user" "alice", relation := "" }
    verb := "read"
    objectType := "widget"
    filter := Expression.empty
    atLeastAsFresh := [] }

/-- A concrete ListObjectsRequest with a malformed subject. -/
def badSubjectListRequest : ListObjectsRequest :=
  { subject := { assertion := Assertion.claims [], relation := "" }
    verb := "read"
    objectType := "widget"
    filter := Expression.empty
    atLeastAsFresh := [] }

/-- A conditional filter in a language the repositories do not support. -/
def sqlExpr : Expression := { language := "sql", expression := "owner_id = 1" }

/-- The conditional CEL filter LocalAuthz emits for subject "alice". -/
def celAliceExpr : Expression :=
  { language := "cel", expression := "widget.owner_id == 'alice'" }

end Cazi

namespace Cazi

theorem lookup_insert (m : Smap) (k : String) (v : Value) :
    lookupS (insertS m k v) k = some v := by
  induction m with
  | nil => simp [insertS, lookupS]
  | cons hd tl ih =>
    obtain ⟨k0, v0⟩ := hd
    by_cases h : k0 = k
    · simp [insertS, h, lookupS]
    · simp [insertS, h, lookupS, ih]

theorem strRep_lawful : ∀ s : String, strRep.proj (strRep.inj s) = some s :=
  fun _ => rfl

theorem getAux_buildFresh {T : Type} (rep : GoRep T)
    (hlaw : ∀ t : T, rep.proj (rep.inj t) = some t) (v : T) :
    ∀ path : List String, path ≠ [] →
      nestedGetAux rep (buildFresh (rep.inj v) path) path = (v, true)
  | [], h => absurd rfl h
  | [k], _ => by
      simp [buildFresh, nestedGetAux, finalGet, lookupS, hlaw]
  | k :: k1 :: rest, _ => by
      simp only [buildFresh, nestedGetAux, lookupS, if_pos rfl]
      exact getAux_buildFresh rep hlaw v (k1 :: rest) (by simp)

theorem setBlocked_none {T : Type} (rep : GoRep T) (v : T) :
    ∀ (path : List String) (m : Smap), setBlocked m path = true →
      nestedSetAux rep v m path = none
  | [], _, h => by simp [setBlocked] at h
  | [_], _, h => by simp [setBlocked] at h
  | k :: k1 :: rest, m, h => by
      rcases hlk : lookupS m k with _ | val
      · simp [setBlocked, hlk] at h
      · cases val with
        | vMap nested =>
          have h2 : setBlocked nested (k1 :: rest) = true := by
            simpa [setBlocked, hlk] using h
          simp [nestedSetAux, hlk, setBlocked_none rep v (k1 :: rest) nested h2]
        | vStr s => simp [nestedSetAux, hlk]
        | vInt n => simp [nestedSetAux, hlk]
        | vBool b => simp [nestedSetAux, hlk]
        | vList l => simp [nestedSetAux, hlk]

theorem setAux_getAux_of_unblocked {T : Type} (rep : GoRep T)
    (hlaw : ∀ t : T, rep.proj (rep.inj t) = some t) (v : T) :
    ∀ (path : List String) (m : Smap), path ≠ [] → setBlocked m path = false →
      ∃ m2, nestedSetAux rep v m path = some m2 ∧
        nestedGetAux rep m2 path = (v, true)
  | [], _, h, _ => absurd rfl h
  | [k], m, _, _ => by
      refine ⟨insertS m k (rep.inj v), rfl, ?_⟩
      simp [nestedGetAux, finalGet, lookup_insert, hlaw]
  | k :: k1 :: rest, m, _, hb => by
      rcases hlk : lookupS m k with _ | val
      · refine ⟨insertS m k (Value.vMap (buildFresh (rep.inj v) (k1 :: rest))), ?_, ?_⟩
        · simp [nestedSetAux, hlk]
        · simp only [nestedGetAux, lookup_insert]
          exact getAux_buildFresh rep hlaw v (k1 :: rest) (by simp)
      · cases val with
        | vMap nested =>
          have hb2 : setBlocked nested (k1 :: rest) = false := by
            simpa [setBlocked, hlk] using hb
          obtain ⟨m2, hset, hget⟩ :=
            setAux_getAux_of_unblocked rep hlaw v (k1 :: rest) nested (by simp) hb2
          refine ⟨insertS m k (Value.vMap m2), ?_, ?_⟩
          · simp [nestedSetAux, hlk, hset]
          · simp only [nestedGetAux, lookup_insert]
            exact hget
        | vStr s => exact absurd hb (by simp [setBlocked, hlk])
        | vInt n => exact absurd hb (by simp [setBlocked, hlk])
        | vBool b => exact absurd hb (by simp [setBlocked, hlk])
        | vList l => exact absurd hb (by simp [setBlocked, hlk])

theorem getAux_eq_walk {T : Type} (rep : GoRep T) :
    ∀ (inter : List String) (f : String) (m : Smap),
      nestedGetAux rep m (inter ++ [f]) =
        match walkInter m inter with
        | none => (rep.zero, false)
        | some m2 => finalGet rep m2 f
  | [], f, m => by simp [walkInter, nestedGetAux]
  | k :: ks, f, m => by
      cases ks with
      | nil =>
        rcases hlk : lookupS m k with _ | val
        · simp [nestedGetAux, walkInter, hlk]
        · cases val <;> simp [nestedGetAux, walkInter, hlk]
      | cons k1 ks2 =>
        rcases hlk : lookupS m k with _ | val
        · simp [nestedGetAux, walkInter, hlk]
        · cases val with
          | vMap nested =>
            have ih := getAux_eq_walk rep (k1 :: ks2) f nested
            simpa [nestedGetAux, walkInter, hlk] using ih
          | vStr s => simp [nestedGetAux, walkInter, hlk]
          | vInt n => simp [nestedGetAux, walkInter, hlk]
          | vBool b => simp [nestedGetAux, walkInter, hlk]
          | vList l => simp [nestedGetAux, walkInter, hlk]

theorem nested_none_iff {T : Type} (rep : GoRep T) (path : List String) :
    Nested rep path = none ↔ path = [] := by
  constructor
  · intro h
    by_contra hne
    simp [Nested, hne] at h
  · intro h
    simp [Nested, h]

/-- Claim C9: constructing a nested accessor fails (the construction-time
panic, modelled as `none`) exactly when it is given zero path segments;
the failure is a property of construction alone, before any Get or Set
call, and construction with one or more segments always yields an
accessor. -/
theorem nested_construction_guard {T : Type} (rep : GoRep T) (path : List String) :
    Nested rep path = none ↔ path = [] :=
  nested_none_iff rep path

/-- Claim C6: for a nested accessor with at least two path segments, on a
container where some intermediate segment already holds a non-mapping
value, Set is a silent no-op: it returns (no error, no panic) and the
container is exactly as it was — the blocking value and every key outside
the path included. -/
theorem nested_set_blocked_noop {T : Type} (rep : GoRep T)
    (k k1 : String) (rest : List String) (m : Smap) (v : T) (cl : Claim T)
    (hcl : Nested rep (k :: k1 :: rest) = some cl)
    (hb : setBlocked m (k :: k1 :: rest) = true) :
    cl.Set (some m) v = some m := by
  have hne : (k :: k1 :: rest) ≠ ([] : List String) := by simp
  rw [Nested, if_neg hne, Option.some.injEq] at hcl
  subst hcl
  show (match nestedSetAux rep v m (k :: k1 :: rest) with
        | none => some m
        | some m2 => some m2) = some m
  rw [setBlocked_none rep v (k :: k1 :: rest) m hb]

/-- Witness for claim C6: path ["a", "b"] on a container where "a" holds
the scalar "x"; Set of "Berlin" leaves the container untouched. -/
theorem nested_set_blocked_noop_witness :
    (Nested strRep ["a", "b"]).map
        (fun cl => cl.Set (some [("a", Value.vStr "x")]) "Berlin") =
      some (some [("a", Value.vStr "x")]) := by
  rcases hcl : Nested strRep ["a", "b"] with _ | cl
  · exact absurd ((nested_none_iff strRep ["a", "b"]).mp hcl) (by simp)
  · rw [Option.map_some']
    rw [nested_set_blocked_noop strRep "a" "b" [] [("a", Value.vStr "x")] "Berlin" cl hcl
      (by decide)]

/-- Claim C4 counterexample: the round-trip fails for a nested accessor on
a container whose intermediate segment "a" holds the non-mapping value
"x": Set is a no-op and Get reports not found instead of ("v", true). -/
theorem roundtrip_counterexample :
    (Nested strRep ["a", "b"]).map
        (fun cl => cl.Get (cl.Set (some [("a", Value.vStr "x")]) "v")) =
      some ("", false) ∧
    (Nested strRep ["a", "b"]).map
        (fun cl => cl.Get (cl.Set (some [("a", Value.vStr "x")]) "v")) ≠
      some ("v", true) := by
  constructor
  · rfl
  · decide

/-- Claim C4 (amended): Set followed by Get returns (v, true) for every
TopLevel accessor on every non-nil container, and for every Nested
accessor on every non-nil container in which no intermediate path segment
already holds a non-mapping value; when such a blocking value is present
the nested Set is a no-op, so the round-trip is restricted to unblocked
containers.  The hypothesis states that the Go type assertion back to T
succeeds on a value of dynamic type T. -/
theorem roundtrip_amended {T : Type} (rep : GoRep T)
    (hlaw : ∀ t : T, rep.proj (rep.inj t) = some t) :
    (∀ (key : String) (m : Smap) (v : T),
        (TopLevel rep key).Get ((TopLevel rep key).Set (some m) v) = (v, true)) ∧
    (∀ (path : List String) (cl : Claim T) (m : Smap) (v : T),
        Nested rep path = some cl → setBlocked m path = false →
        cl.Get (cl.Set (some m) v) = (v, true)) := by
  constructor
  · intro key m v
    simp [TopLevel, lookupClaims, lookup_insert, hlaw]
  · intro path cl m v hcl hb
    have hne : path ≠ [] := by
      intro h
      rw [(nested_none_iff rep path).mpr h] at hcl
      exact Option.noConfusion hcl
    rw [Nested, if_neg hne, Option.some.injEq] at hcl
    subst hcl
    obtain ⟨m2, hset, hget⟩ := setAux_getAux_of_unblocked rep hlaw v path m hne hb
    dsimp only
    rw [hset]
    exact hget

/-- Witness for claim C4: a TopLevel round-trip and an unblocked nested
round-trip on concrete containers. -/
theorem roundtrip_amended_witness :
    (TopLevel strRep "k").Get ((TopLevel strRep "k").Set (some []) "v") = ("v", true) :=
  (roundtrip_amended strRep (fun _ => rfl)).1 "k" [] "v"

/-- Claim C5: accessors are total and never fault.  Get returns the zero
value and false on a nil container, a missing key, a stored value failing
the type assertion to T, and — for nested accessors with intermediate
segments `inter` and final segment `f` — whenever the walk through the
intermediates misses a key or meets a non-mapping value, the final key is
missing, or the final value fails the type assertion; Set on a nil
container is a no-op returning the nil container. -/
theorem accessor_never_panics {T : Type} (rep : GoRep T) :
    (∀ key : String, (TopLevel rep key).Get none = (rep.zero, false)) ∧
    (∀ (key : String) (m : Smap), lookupS m key = none →
        (TopLevel rep key).Get (some m) = (rep.zero, false)) ∧
    (∀ (key : String) (m : Smap) (val : Value), lookupS m key = some val →
        rep.proj val = none → (TopLevel rep key).Get (some m) = (rep.zero, false)) ∧
    (∀ (key : String) (v : T), (TopLevel rep key).Set none v = none) ∧
    (∀ (inter : List String) (f : String) (cl : Claim T),
        Nested rep (inter ++ [f]) = some cl →
        cl.Get none = (rep.zero, false) ∧
        (∀ v : T, cl.Set none v = none) ∧
        (∀ m : Smap, walkInter m inter = none →
            cl.Get (some m) = (rep.zero, false)) ∧
        (∀ (m m2 : Smap), walkInter m inter = some m2 → lookupS m2 f = none →
            cl.Get (some m) = (rep.zero, false)) ∧
        (∀ (m m2 : Smap) (val : Value), walkInter m inter = some m2 →
            lookupS m2 f = some val → rep.proj val = none →
            cl.Get (some m) = (rep.zero, false))) := by
  refine ⟨?_, ?_, ?_, ?_, ?_⟩
  · intro key
    simp [TopLevel, lookupClaims]
  · intro key m h
    simp [TopLevel, lookupClaims, h]
  · intro key m val h hp
    simp [TopLevel, lookupClaims, h, hp]
  · intro key v
    simp [TopLevel]
  · intro inter f cl hcl
    have hne : inter ++ [f] ≠ ([] : List String) := by simp
    rw [Nested, if_neg hne, Option.some.injEq] at hcl
    subst hcl
    refine ⟨?_, fun v => rfl, ?_, ?_, ?_⟩
    · show nestedGetAux rep [] (inter ++ [f]) = (rep.zero, false)
      rw [getAux_eq_walk]
      cases inter with
      | nil => simp [walkInter, finalGet, lookupS]
      | cons k ks => simp [walkInter, lookupS]
    · intro m hw
      show nestedGetAux rep m (inter ++ [f]) = (rep.zero, false)
      rw [getAux_eq_walk, hw]
    · intro m m2 hw hlk
      show nestedGetAux rep m (inter ++ [f]) = (rep.zero, false)
      rw [getAux_eq_walk, hw]
      simp [finalGet, hlk]
    · intro m m2 val hw hlk hp
      show nestedGetAux rep m (inter ++ [f]) = (rep.zero, false)
      rw [getAux_eq_walk, hw]
      simp [finalGet, hlk, hp]

/-- Witness for claim C5: a missing top-level key, a wrong-type lookup, a
nil-container Set, and a nested Get across a blocked intermediate all
return the not-found outcome on concrete data. -/
theorem accessor_never_panics_witness :
    (TopLevel strRep "missing").Get (some [("k", Value.vInt 3)]) = ("", false) ∧
    (TopLevel strRep "k").Get (some [("k", Value.vInt 3)]) = ("", false) ∧
    (TopLevel strRep "k").Set none "v" = none := by
  refine ⟨?_, ?_, ?_⟩
  · exact (accessor_never_panics strRep).2.1 "missing" [("k", Value.vInt 3)] rfl
  · exact (accessor_never_panics strRep).2.2.1 "k" [("k", Value.vInt 3)] (Value.vInt 3) rfl rfl
  · exact (accessor_never_panics strRep).2.2.2.1 "k" "v"

/-- Claim C1: information hiding.  For any stored record and any filter
expression with a non-empty language that the record fails, FindByID
returns exactly the same not-found outcome (`ErrNotFound` error, nil
widget) as a FindByID for an id that is not in the store at all — for the
in-memory repository (filter failing means the CEL evaluation yields
false) and for the Postgres repository (the converted WHERE clause
rejects the record). -/
theorem findByID_information_hiding
    (ev : CelEval) (conv : CelToPred) (widgets : WidgetStore)
    (id missingId : String) (expr : Expression) (data : WidgetData)
    (pred : WidgetData → Bool)
    (hlang : expr.language ≠ "")
    (hfound : lookupW widgets id = some data)
    (hmissing : lookupW widgets missingId = none)
    (hfail : evaluateExpression ev data expr = Except.ok false)
    (hconv : expressionToSQL conv expr = Except.ok pred)
    (hpfail : pred data = false) :
    FindByID ev widgets id expr = Except.error RepoErr.notFound ∧
    FindByID ev widgets missingId expr = Except.error RepoErr.notFound ∧
    PostgresFindByID conv widgets id expr = Except.error RepoErr.notFound ∧
    PostgresFindByID conv widgets missingId expr = Except.error RepoErr.notFound := by
  refine ⟨?_, ?_, ?_, ?_⟩
  · simp [FindByID, hfound, hlang, hfail]
  · simp [FindByID, hmissing]
  · simp [PostgresFindByID, hlang, hconv, hfound, hpfail]
  · simp [PostgresFindByID, hlang, hconv, hmissing]

/-- Witness for claim C1: the record "w1" (owned by "alice") failing the
filter and the absent id "w2" produce the identical ErrNotFound outcome
in both repositories. -/
theorem findByID_information_hiding_witness :
    FindByID evalFalse [("w1", widgetA)] "w1" celAliceExpr =
      Except.error RepoErr.notFound ∧
    FindByID evalFalse [("w1", widgetA)] "w2" celAliceExpr =
      Except.error RepoErr.notFound ∧
    PostgresFindByID convFalse [("w1", widgetA)] "w1" celAliceExpr =
      Except.error RepoErr.notFound ∧
    PostgresFindByID convFalse [("w1", widgetA)] "w2" celAliceExpr =
      Except.error RepoErr.notFound :=
  findByID_information_hiding evalFalse convFalse [("w1", widgetA)] "w1" "w2"
    celAliceExpr widgetA (fun _ => false) (by decide) rfl rfl rfl rfl rfl

/-- Claim C3 counterexample: the claim quantifies over every call with an
unsupported non-empty language, but a FindAll over an empty store returns
plain success with an empty list, and a FindByID for an absent id returns
the ErrNotFound the claim says the outcome is distinct from — in neither
case is a capability error reported. -/
theorem capability_error_counterexample :
    FindAll evalTrue sqlExpr [] = Except.ok [] ∧
    FindByID evalTrue [] "w1" sqlExpr = Except.error RepoErr.notFound := by
  exact ⟨rfl, rfl⟩

/-- Claim C3 (amended): with a filter in a non-empty language other than
"cel", the in-memory repository reports the explicit capability error —
distinct from ErrNotFound — whenever it reaches a record (FindByID whose
id exists; FindAll over a non-empty store); FindByID for an absent id
returns ErrNotFound and FindAll over an empty store returns an empty
list; and no such call ever returns a widget as though the filter had
passed. -/
theorem capability_error_amended (ev : CelEval) (widgets : WidgetStore)
    (id : String) (expr : Expression) (data : WidgetData)
    (hne : expr.language ≠ "") (hun : expr.language ≠ "cel") :
    (lookupW widgets id = some data →
        FindByID ev widgets id expr =
          Except.error (evalFailure
            ("unsupported expression language: " ++ expr.language ++
              " (repository only supports: cel)"))) ∧
    (lookupW widgets id = none →
        FindByID ev widgets id expr = Except.error RepoErr.notFound) ∧
    (∀ w : WidgetData, FindByID ev widgets id expr ≠ Except.ok w) ∧
    (widgets ≠ [] →
        FindAll ev expr widgets =
          Except.error (evalFailure
            ("unsupported expression language: " ++ expr.language ++
              " (repository only supports: cel)"))) ∧
    (∀ (w : WidgetData) (ws : List WidgetData),
        FindAll ev expr widgets ≠ Except.ok (w :: ws)) ∧
    (∀ e : String, evalFailure e ≠ RepoErr.notFound) := by
  have heval : ∀ d : WidgetData,
      evaluateExpression ev d expr =
        Except.error
          ("unsupported expression language: " ++ expr.language ++
            " (repository only supports: cel)") := by
    intro d
    simp [evaluateExpression, hun]
  refine ⟨?_, ?_, ?_, ?_, ?_, ?_⟩
  · intro hfound
    simp [FindByID, hfound, hne, heval]
  · intro hmissing
    simp [FindByID, hmissing]
  · intro w
    rcases hl : lookupW widgets id with _ | d
    · simp [FindByID, hl]
    · simp [FindByID, hl, hne, heval]
  · intro hnonempty
    rcases hw : widgets with _ | ⟨⟨k0, d0⟩, rest⟩
    · exact absurd hw hnonempty
    · simp [FindAll, hne, heval]
  · intro w ws
    rcases hw : widgets with _ | ⟨⟨k0, d0⟩, rest⟩
    · simp [FindAll]
    · simp [FindAll, hne, heval]
  · intro e
    simp [evalFailure]

/-- Witness for claim C3: a store holding "w1" and the unsupported
language "sql" produce the capability error from both FindByID and
FindAll. -/
theorem capability_error_amended_witness :
    FindByID evalTrue [("w1", widgetA)] "w1" sqlExpr =
      Except.error (evalFailure
        "unsupported expression language: sql (repository only supports: cel)") ∧
    FindAll evalTrue sqlExpr [("w1", widgetA)] =
      Except.error (evalFailure
        "unsupported expression language: sql (repository only supports: cel)") := by
  have h := capability_error_amended evalTrue [("w1", widgetA)] "w1" sqlExpr widgetA
    (by decide) (by decide)
  exact ⟨h.1 rfl, h.2.2.2.1 (by decide)⟩

/-- Claim C8 counterexample: for the subject id "alice" the emitted
condition source is "widget.owner_id == 'alice'", not the claimed
"owner_id == 'alice'" (which only the superseded LocalAuthz variant
produced). -/
theorem conditional_read_counterexample :
    (LocalAuthz.Check readRequest).1.condition.expression =
      "widget.owner_id == 'alice'" ∧
    (LocalAuthz.Check readRequest).1.condition.expression ≠
      "owner_id == 'alice'" := by
  exact ⟨rfl, by decide⟩

/-- Claim C8 (amended): for every check with verb "read", a
ResourceReference subject of type "user" with id S and a
ResourceReference object of type "widget", LocalAuthz.Check returns
decision Conditional, condition language "cel" and condition source
`widget.owner_id == '<S>'` — the CEL comparison of the record's owner id
against the subject id — with no error. -/
theorem conditional_read_amended (s oid rel : String) (tok : List Nat) :
    LocalAuthz.Check
        { subject := { assertion := Assertion.resourceReference "user" s, relation := rel }
          verb := "read"
          object := { assertion := Assertion.resourceReference "widget" oid }
          atLeastAsFresh := tok } =
      ({ decision := DecisionKind.conditional
         condition := { language := "cel"
                        expression := "widget.owner_id == '" ++ s ++ "'" }
         context := { requesterContext := some [("sub", Value.vStr s)]
                      transactionContext := none } }, none) := by
  simp [LocalAuthz.Check, Sub, TopLevel, strRep, insertS]

/-- Claim C2: every LocalAuthz response with decision Conditional carries
a condition with a non-empty language, and every response with decision
Allow or Deny leaves the condition at its zero value (empty language and
empty expression), for Check and for ListObjects. -/
theorem conditional_language_invariant (creq : CheckRequest) (lreq : ListObjectsRequest) :
    ((LocalAuthz.Check creq).1.decision = DecisionKind.conditional →
        (LocalAuthz.Check creq).1.condition.language ≠ "") ∧
    ((LocalAuthz.Check creq).1.decision = DecisionKind.allow ∨
        (LocalAuthz.Check creq).1.decision = DecisionKind.deny →
        (LocalAuthz.Check creq).1.condition = Expression.empty) ∧
    ((LocalAuthz.ListObjects lreq).1.decision = DecisionKind.conditional →
        (LocalAuthz.ListObjects lreq).1.condition.language ≠ "") ∧
    ((LocalAuthz.ListObjects lreq).1.decision = DecisionKind.allow ∨
        (LocalAuthz.ListObjects lreq).1.decision = DecisionKind.deny →
        (LocalAuthz.ListObjects lreq).1.condition = Expression.empty) := by
  obtain ⟨⟨sa, srel⟩, verb, ⟨oa⟩, tok⟩ := creq
  obtain ⟨⟨sa2, srel2⟩, verb2, oty2, fil2, tok2⟩ := lreq
  refine ⟨?_, ?_, ?_, ?_⟩ <;>
    cases sa <;> cases oa <;> cases sa2 <;>
    simp only [LocalAuthz.Check, LocalAuthz.ListObjects] <;>
    first
      | (split_ifs <;> simp [denyCheckResponse, denyListResponse, Expression.empty])
      | simp [denyCheckResponse, denyListResponse, Expression.empty]

/-- Witness for claim C2: the concrete conditional read and widget list
both carry language "cel", and a denied check carries the zero-valued
condition. -/
theorem conditional_language_invariant_witness :
    (LocalAuthz.Check readRequest).1.condition.language ≠ "" ∧
    (LocalAuthz.ListObjects listRequest).1.condition.language ≠ "" ∧
    (LocalAuthz.Check badVerbRequest).1.condition = Expression.empty := by
  have h := conditional_language_invariant readRequest listRequest
  have h2 := conditional_language_invariant badVerbRequest listRequest
  exact ⟨h.1 rfl, h.2.2.1 rfl, h2.2.1 (Or.inr rfl)⟩

/-- Claim C10: whenever LocalAuthz.Check or LocalAuthz.ListObjects
returns a non-nil error, the accompanying response is exactly the Deny
response with zero-valued Condition and Context; and neither operation
ever returns DecisionUnknown, with or without an error. -/
theorem error_implies_deny (creq : CheckRequest) (lreq : ListObjectsRequest) :
    ((LocalAuthz.Check creq).2 ≠ none →
        (LocalAuthz.Check creq).1 = denyCheckResponse) ∧
    (LocalAuthz.Check creq).1.decision ≠ DecisionKind.unknown ∧
    ((LocalAuthz.ListObjects lreq).2 ≠ none →
        (LocalAuthz.ListObjects lreq).1 = denyListResponse) ∧
    (LocalAuthz.ListObjects lreq).1.decision ≠ DecisionKind.unknown := by
  obtain ⟨⟨sa, srel⟩, verb, ⟨oa⟩, tok⟩ := creq
  obtain ⟨⟨sa2, srel2⟩, verb2, oty2, fil2, tok2⟩ := lreq
  refine ⟨?_, ?_, ?_, ?_⟩ <;>
    cases sa <;> cases oa <;> cases sa2 <;>
    simp only [LocalAuthz.Check, LocalAuthz.ListObjects] <;>
    first
      | (split_ifs <;> simp [denyCheckResponse, denyListResponse])
      | simp [denyCheckResponse, denyListResponse]

/-- Witness for claim C10: the unknown-verb check error pairs with the
zero-valued Deny response, and the conditional read is not Unknown. -/
theorem error_implies_deny_witness :
    (LocalAuthz.Check badVerbRequest).1 = denyCheckResponse ∧
    (LocalAuthz.Check readRequest).1.decision ≠ DecisionKind.unknown := by
  have h := error_implies_deny badVerbRequest listRequest
  have h2 := error_implies_deny readRequest listRequest
  exact ⟨h.1 (by decide), h2.2.1⟩

/-- Claim C7: a request whose subject is not a ResourceReference of type
"user", or (for Check) whose object is not a ResourceReference of type
"widget" or whose verb is neither "create" nor "read", or (for
ListObjects) whose object type is not "widget", yields a non-nil error —
an invalid request is not a plain Deny decision. -/
theorem request_shape_errors (creq : CheckRequest) (lreq : ListObjectsRequest)
    (hc : isUserRef creq.subject.assertion = false ∨
          isWidgetRef creq.object.assertion = false ∨
          (creq.verb ≠ "create" ∧ creq.verb ≠ "read"))
    (hl : isUserRef lreq.subject.assertion = false ∨ lreq.objectType ≠ "widget") :
    (LocalAuthz.Check creq).2 ≠ none ∧ (LocalAuthz.ListObjects lreq).2 ≠ none := by
  obtain ⟨⟨sa, srel⟩, verb, ⟨oa⟩, tok⟩ := creq
  obtain ⟨⟨sa2, srel2⟩, verb2, oty2, fil2, tok2⟩ := lreq
  constructor
  · cases sa <;> cases oa <;>
      simp only [LocalAuthz.Check] <;>
      first
        | (split_ifs <;> simp_all [isUserRef, isWidgetRef])
        | simp_all [isUserRef, isWidgetRef]
  · cases sa2 <;>
      simp only [LocalAuthz.ListObjects] <;>
      first
        | (split_ifs <;> simp_all [isUserRef, isWidgetRef])
        | simp_all [isUserRef, isWidgetRef]

/-- Witness for claim C7: an unrecognized verb on Check and a claims-bag
subject on ListObjects both produce non-nil errors. -/
theorem request_shape_errors_witness :
    (LocalAuthz.Check badVerbRequest).2 ≠ none ∧
    (LocalAuthz.ListObjects badSubjectListRequest).2 ≠ none :=
  request_shape_errors badVerbRequest badSubjectListRequest
    (Or.inr (Or.inr ⟨by decide, by decide⟩)) (Or.inl (by decide))

end Cazi
